import Mathlib

/-!
Shallow embedding of the PrayerCellPro book-lending portal's workflow and
access-control logic.

Sources embedded:
- src/app/user/request-book/[id]/page.tsx  (handleRequestBook)
- src/app/admin/dashboard/page.tsx         (handleApproveRequest,
                                            handleRejectRequest, handleMarkReturned)
- src/app/admin/books/page.tsx             (handleToggleStatus, handleDeleteBook,
                                            fetchBooks admin listing)
- src/app/books/page.tsx                   (fetchBooks public listing)
- src/app/register/page.tsx                (onSubmit, POST /api/verify-admin-code)

Modelling conventions: Firestore document ids are `String`; timestamps are
natural numbers counted in days, so date-fns `addDays(now, 15)` becomes
`now + 15`; a Firestore `updateDoc` on a document id becomes a `List.map`
that rewrites every record carrying that id; `addDoc` appends a record with
a caller-supplied fresh id.
-/

namespace PrayerCell

/-- Book.status values: "available" | "unavailable" | "deleted"
(src/app/admin/books/page.tsx, interface Book). -/
inductive BookStatus
  | available
  | unavailable
  | deleted
deriving DecidableEq, Repr

/-- BookRequest.status values: "pending" | "approved" | "rejected" | "returned"
(src/app/admin/dashboard/page.tsx, interface BookRequest). -/
inductive RequestStatus
  | pending
  | approved
  | rejected
  | returned
deriving DecidableEq, Repr

/-- interface Book (src/app/admin/books/page.tsx). -/
structure Book where
  id : String
  title : String
  author : String
  category : String
  description : String
  status : BookStatus
  coverImage : String
deriving DecidableEq, Repr

/-- interface BookRequest (src/app/admin/dashboard/page.tsx).
`requestDate` and `dueDate` are ISO date strings in the source; modelled as
day counts. -/
structure BookRequest where
  id : String
  bookId : String
  bookTitle : String
  userId : String
  userName : String
  requestDate : Nat
  dueDate : Nat
  status : RequestStatus
deriving DecidableEq, Repr

/-- The two Firestore collections the workflow reads and writes:
"books" and "bookRequests". -/
structure LibraryState where
  books : List Book
  requests : List BookRequest
deriving DecidableEq, Repr

/-- date-fns addDays, with time counted in days. -/
def addDays (amount : Nat) (t : Nat) : Nat :=
  t + amount

/-- The effect of `updateDoc(doc(db, "books", bookId), { status: newStatus })`
on a single stored book record. -/
def bookStatusWrite (bookId : String) (newStatus : BookStatus) (b : Book) : Book :=
  if b.id = bookId then { b with status := newStatus } else b

/-- Effect of `updateDoc(doc(db, "books", bookId), { status: newStatus })` over
the whole "books" collection. -/
def updateBookStatus (bookId : String) (newStatus : BookStatus) (books : List Book) :
    List Book :=
  books.map (bookStatusWrite bookId newStatus)

/-- handleRequestBook (src/app/user/request-book/[id]/page.tsx, lines 71-121):
`addDoc(collection(db, "bookRequests"), { bookId: book.id, bookTitle: book.title,
userId: user.uid, userName: userData.name, requestDate: now, dueDate: addDays(now, 15),
status: "pending" })` followed by
`updateDoc(doc(db, "books", book.id), { status: "unavailable" })`.
`newRequestId` is the fresh document id Firestore assigns to the addDoc. -/
def handleRequestBook (s : LibraryState) (book : Book) (newRequestId : String)
    (userId userName : String) (now : Nat) : LibraryState :=
  let dueDate := addDays 15 now
  let newRequest : BookRequest :=
    { id := newRequestId
      bookId := book.id
      bookTitle := book.title
      userId := userId
      userName := userName
      requestDate := now
      dueDate := dueDate
      status := .pending }
  { books := updateBookStatus book.id .unavailable s.books
    requests := s.requests ++ [newRequest] }

/-- The per-record effect of the approve action's
`updateDoc(doc(db, "bookRequests", requestId), { status: "approved",
dueDate: addDays(new Date(), 15).toISOString() })`. -/
def approveRequestWrite (requestId : String) (now : Nat) (r : BookRequest) : BookRequest :=
  if r.id = requestId then { r with status := .approved, dueDate := addDays 15 now } else r

/-- handleApproveRequest (src/app/admin/dashboard/page.tsx, lines 65-108):
sets the request to "approved" with dueDate 15 days from now, then writes
the book's status to "unavailable". -/
def handleApproveRequest (s : LibraryState) (requestId bookId : String) (now : Nat) :
    LibraryState :=
  { requests := s.requests.map (approveRequestWrite requestId now)
    books := updateBookStatus bookId .unavailable s.books }

/-- The per-record effect of
`updateDoc(doc(db, "bookRequests", requestId), { status: st })`, used by
the reject and mark-returned actions, which touch only `status`. -/
def requestStatusWrite (requestId : String) (st : RequestStatus) (r : BookRequest) :
    BookRequest :=
  if r.id = requestId then { r with status := st } else r

/-- handleRejectRequest (src/app/admin/dashboard/page.tsx, lines 110-151):
sets the request to "rejected", then writes the book's status to "available". -/
def handleRejectRequest (s : LibraryState) (requestId bookId : String) : LibraryState :=
  { requests := s.requests.map (requestStatusWrite requestId .rejected)
    books := updateBookStatus bookId .available s.books }

/-- handleMarkReturned (src/app/admin/dashboard/page.tsx, lines 153-194):
sets the request to "returned", then writes the book's status to "available". -/
def handleMarkReturned (s : LibraryState) (requestId bookId : String) : LibraryState :=
  { requests := s.requests.map (requestStatusWrite requestId .returned)
    books := updateBookStatus bookId .available s.books }

/-- Translation of
`const newStatus = currentStatus === "available" ? "unavailable" : "available"`
(src/app/admin/books/page.tsx, handleToggleStatus, line 90). -/
def toggledStatus (currentStatus : BookStatus) : BookStatus :=
  if currentStatus = .available then .unavailable else .available

/-- handleToggleStatus (src/app/admin/books/page.tsx, lines 88-114):
writes `toggledStatus currentStatus` to the book, where `currentStatus` is
the status the UI read for that book. -/
def handleToggleStatus (s : LibraryState) (bookId : String) (currentStatus : BookStatus) :
    LibraryState :=
  { s with books := updateBookStatus bookId (toggledStatus currentStatus) s.books }

/-- handleDeleteBook (src/app/admin/books/page.tsx, lines 116-138):
soft delete by writing status "deleted". -/
def handleDeleteBook (s : LibraryState) (bookId : String) : LibraryState :=
  { s with books := updateBookStatus bookId .deleted s.books }

/-- fetchBooks in the admin listing (src/app/admin/books/page.tsx, lines 46-72):
`query(collection(db, "books"), where("status", "!=", "deleted"))`. -/
def fetchBooksAdmin (books : List Book) : List Book :=
  books.filter (fun b => b.status ≠ .deleted)

/-- fetchBooks in the public catalog (src/app/books/page.tsx, lines 35-61):
the same `where("status", "!=", "deleted")` query. -/
def fetchBooksPublic (books : List Book) : List Book :=
  books.filter (fun b => b.status ≠ .deleted)

/-- POST /api/verify-admin-code (src/app/register/page.tsx bundle, lines 285-293):
`const isValid = adminCode === process.env.ADMIN_SECRET_CODE`. A missing JSON
field and an unset environment variable are both JavaScript `undefined`,
modelled as `none`; JS `===` on these values is `Option String` equality. -/
def verifyAdminCode (adminCode configuredSecret : Option String) : Bool :=
  adminCode == configuredSecret

/-- User roles (src/app/register/page.tsx, formSchema: z.enum(["user", "admin"])). -/
inductive Role
  | user
  | admin
deriving DecidableEq, Repr

/-- Which external writes the registration submit performed. -/
structure RegisterEffects where
  rejectedByAdminGate : Bool
  authAccountCreated : Bool
  profileCreated : Bool
deriving DecidableEq, Repr

/-- onSubmit (src/app/register/page.tsx, lines 59-139): when role is "admin"
the admin code is verified first and an invalid code returns before
`createUserWithEmailAndPassword` and the profile `setDoc`; otherwise both
writes run. The form always submits `adminCode` as a string (it defaults
to ""). -/
def onSubmitRegister (role : Role) (adminCode : String) (configuredSecret : Option String) :
    RegisterEffects :=
  if role = .admin && !(verifyAdminCode (some adminCode) configuredSecret) then
    { rejectedByAdminGate := true, authAccountCreated := false, profileCreated := false }
  else
    { rejectedByAdminGate := false, authAccountCreated := true, profileCreated := true }

/-- The workflow actions of spec section 4.1, with the arguments the UI
passes each handler. -/
inductive WorkflowAction
  | createRequest (book : Book) (newRequestId userId userName : String) (now : Nat)
  | approve (requestId bookId : String) (now : Nat)
  | reject (requestId bookId : String)
  | markReturned (requestId bookId : String)
  | softDelete (bookId : String)
  | toggleAvailability (bookId : String) (currentStatus : BookStatus)
deriving DecidableEq, Repr

/-- Dispatch an action to the source handler it names. -/
def applyAction (s : LibraryState) : WorkflowAction → LibraryState
  | .createRequest book rid uid uname now => handleRequestBook s book rid uid uname now
  | .approve rid bid now => handleApproveRequest s rid bid now
  | .reject rid bid => handleRejectRequest s rid bid
  | .markReturned rid bid => handleMarkReturned s rid bid
  | .softDelete bid => handleDeleteBook s bid
  | .toggleAvailability bid cur => handleToggleStatus s bid cur

/-- The preconditions of spec section 4.1 under which the UI fires each
handler: create needs an available book (and Firestore hands addDoc a fresh
id); approve and reject are offered on pending requests, mark-returned on
approved ones, with `bookId` read off the request row; soft-delete and
toggle are offered on listed (non-deleted) books, toggle passing the status
the UI read. -/
@[reducible] def actionPre (s : LibraryState) : WorkflowAction → Prop
  | .createRequest book rid _ _ _ =>
      book ∈ s.books ∧ book.status = .available ∧ ∀ r ∈ s.requests, r.id ≠ rid
  | .approve rid bid _ =>
      ∃ r ∈ s.requests, r.id = rid ∧ r.bookId = bid ∧ r.status = .pending
  | .reject rid bid =>
      ∃ r ∈ s.requests, r.id = rid ∧ r.bookId = bid ∧ r.status = .pending
  | .markReturned rid bid =>
      ∃ r ∈ s.requests, r.id = rid ∧ r.bookId = bid ∧ r.status = .approved
  | .softDelete bid =>
      ∃ b ∈ s.books, b.id = bid
  | .toggleAvailability bid cur =>
      ∃ b ∈ s.books, b.id = bid ∧ b.status = cur ∧ cur ≠ .deleted

/-- An open request in the glossary's sense: status pending or approved. -/
@[reducible] def isOpenRequest (r : BookRequest) : Prop :=
  r.status = .pending ∨ r.status = .approved

/-- Spec section 8 invariant: a Book with status available has no associated
request whose status is pending or approved. -/
@[reducible] def availableImpliesNoOpen (s : LibraryState) : Prop :=
  ∀ b ∈ s.books, b.status = .available →
    ∀ r ∈ s.requests, r.bookId = b.id → ¬ isOpenRequest r

/-- Spec section 3 invariant: at most one open request per book. -/
@[reducible] def atMostOneOpenPerBook (s : LibraryState) : Prop :=
  s.requests.Pairwise
    (fun r₁ r₂ => isOpenRequest r₁ → isOpenRequest r₂ → r₁.bookId ≠ r₂.bookId)

/-- Firestore document ids in "bookRequests" are distinct. -/
@[reducible] def requestIdsNodup (s : LibraryState) : Prop :=
  (s.requests.map BookRequest.id).Nodup

/-- A sample stored book, unavailable because of an open request. -/
def sampleBookUnavailable : Book :=
  { id := "b1", title := "Streams in the Desert", author := "L. B. Cowman"
    category := "Devotional", description := "A classic daily devotional."
    status := .unavailable, coverImage := "covers/b1.png" }

/-- A sample stored book, available with no request against it. -/
def sampleBookAvailable : Book :=
  { id := "b2", title := "The Pursuit of God", author := "A. W. Tozer"
    category := "Theology", description := "On the soul's thirst for God."
    status := .available, coverImage := "covers/b2.png" }

/-- A sample pending request against `sampleBookUnavailable`. -/
def samplePendingRequest : BookRequest :=
  { id := "r1", bookId := "b1", bookTitle := "Streams in the Desert"
    userId := "u1", userName := "Asha", requestDate := 100, dueDate := 115
    status := .pending }

/-- A sample store state: one unavailable book with a pending request, one
available book with none. It satisfies all three invariants. -/
def sampleState : LibraryState :=
  { books := [sampleBookUnavailable, sampleBookAvailable]
    requests := [samplePendingRequest] }

/-- The sample store after the admin rejects the pending request. -/
def rejectedSampleState : LibraryState :=
  handleRejectRequest sampleState "r1" "b1"

/-- The sample store after the admin soft-deletes book b1 while its request
is still pending. -/
def deletedSampleState : LibraryState :=
  handleDeleteBook sampleState "b1"

/-! ### Record-level facts about the store writes -/

theorem bookStatusWrite_id (bid : String) (st : BookStatus) (b : Book) :
    (bookStatusWrite bid st b).id = b.id := by
  simp only [bookStatusWrite]
  split <;> rfl

theorem bookStatusWrite_of_ne {bid : String} {b : Book} (st : BookStatus)
    (h : b.id ≠ bid) : bookStatusWrite bid st b = b := by
  simp [bookStatusWrite, h]

theorem bookStatusWrite_status_of_eq {bid : String} {b : Book} (st : BookStatus)
    (h : b.id = bid) : (bookStatusWrite bid st b).status = st := by
  simp [bookStatusWrite, h]

theorem bookStatusWrite_self {st : BookStatus} {b : Book} (bid : String)
    (h : b.status = st) : bookStatusWrite bid st b = b := by
  subst h
  simp only [bookStatusWrite]
  split <;> rfl

theorem bookStatusWrite_write (bid : String) (st₁ st₂ : BookStatus) (b : Book) :
    bookStatusWrite bid st₂ (bookStatusWrite bid st₁ b) = bookStatusWrite bid st₂ b := by
  by_cases h : b.id = bid
  · simp [bookStatusWrite, h]
  · simp [bookStatusWrite, h]

theorem updateBookStatus_status {bid : String} {st : BookStatus} {books : List Book} :
    ∀ b' ∈ updateBookStatus bid st books, b'.id = bid → b'.status = st := by
  intro b' hb' hid
  rcases List.mem_map.mp hb' with ⟨b, hb, rfl⟩
  by_cases h : b.id = bid
  · exact bookStatusWrite_status_of_eq st h
  · rw [bookStatusWrite_of_ne st h] at hid
    exact absurd hid h

theorem requestStatusWrite_of_ne {rid : String} {r : BookRequest} (st : RequestStatus)
    (h : r.id ≠ rid) : requestStatusWrite rid st r = r := by
  simp [requestStatusWrite, h]

theorem requestStatusWrite_fields (rid : String) (st : RequestStatus) (r : BookRequest) :
    (requestStatusWrite rid st r).id = r.id ∧
    (requestStatusWrite rid st r).bookId = r.bookId ∧
    (requestStatusWrite rid st r).requestDate = r.requestDate ∧
    (requestStatusWrite rid st r).dueDate = r.dueDate := by
  simp only [requestStatusWrite]
  split <;> simp

theorem requestStatusWrite_status_of_eq {rid : String} {r : BookRequest}
    (st : RequestStatus) (h : r.id = rid) :
    (requestStatusWrite rid st r).status = st := by
  simp [requestStatusWrite, h]

theorem approveRequestWrite_of_ne {rid : String} {r : BookRequest} (now : Nat)
    (h : r.id ≠ rid) : approveRequestWrite rid now r = r := by
  simp [approveRequestWrite, h]

theorem approveRequestWrite_of_eq {rid : String} {r : BookRequest} (now : Nat)
    (h : r.id = rid) :
    approveRequestWrite rid now r =
      { r with status := .approved, dueDate := now + 15 } := by
  simp [approveRequestWrite, addDays, h]

theorem approveRequestWrite_fields (rid : String) (now : Nat) (r : BookRequest) :
    (approveRequestWrite rid now r).id = r.id ∧
    (approveRequestWrite rid now r).bookId = r.bookId ∧
    (approveRequestWrite rid now r).requestDate = r.requestDate := by
  simp only [approveRequestWrite]
  split <;> simp

/-! ### Claim theorems -/

/-- C2: for every Book with status available and every authenticated user, the
create-request action appends exactly one new BookRequest whose status is
pending and whose dueDate equals its requestDate plus 15 days, and sets that
Book's status to unavailable. -/
theorem createRequest_spec (s : LibraryState) (book : Book) (rid uid uname : String)
    (now : Nat) (hb : book ∈ s.books) (hav : book.status = .available) :
    (∃ r : BookRequest,
      (handleRequestBook s book rid uid uname now).requests = s.requests ++ [r] ∧
      r.status = .pending ∧ r.requestDate = now ∧ r.dueDate = r.requestDate + 15 ∧
      r.bookId = book.id ∧ r.id = rid) ∧
    (∀ b' ∈ (handleRequestBook s book rid uid uname now).books,
      b'.id = book.id → b'.status = .unavailable) ∧
    (∃ b' ∈ (handleRequestBook s book rid uid uname now).books,
      b'.id = book.id ∧ b'.status = .unavailable) := by
  refine ⟨⟨_, rfl, rfl, rfl, rfl, rfl, rfl⟩, ?_, ?_⟩
  · exact updateBookStatus_status
  · refine ⟨bookStatusWrite book.id .unavailable book, List.mem_map.mpr ⟨book, hb, rfl⟩, ?_, ?_⟩
    · exact bookStatusWrite_id book.id .unavailable book
    · exact bookStatusWrite_status_of_eq .unavailable rfl

/-- Closed instance of createRequest_spec on the sample store. -/
theorem createRequest_spec_witness :
    (∃ r : BookRequest,
      (handleRequestBook sampleState sampleBookAvailable "r2" "u2" "Daniel" 200).requests =
        sampleState.requests ++ [r] ∧
      r.status = .pending ∧ r.requestDate = 200 ∧ r.dueDate = r.requestDate + 15 ∧
      r.bookId = sampleBookAvailable.id ∧ r.id = "r2") ∧
    (∀ b' ∈ (handleRequestBook sampleState sampleBookAvailable "r2" "u2" "Daniel" 200).books,
      b'.id = sampleBookAvailable.id → b'.status = .unavailable) ∧
    (∃ b' ∈ (handleRequestBook sampleState sampleBookAvailable "r2" "u2" "Daniel" 200).books,
      b'.id = sampleBookAvailable.id ∧ b'.status = .unavailable) :=
  createRequest_spec sampleState sampleBookAvailable "r2" "u2" "Daniel" 200
    (by decide) rfl

/-- C3: for every pending BookRequest, the approve action sets its status to
approved, overwrites its dueDate with the approval time plus 15 days, and
writes unavailable to the associated Book; that book write is idempotent when
the Book is already unavailable. -/
theorem approveRequest_spec (s : LibraryState) (r : BookRequest) (now : Nat)
    (hr : r ∈ s.requests) (hp : r.status = .pending) :
    (∀ r' ∈ (handleApproveRequest s r.id r.bookId now).requests,
      r'.id = r.id → r'.status = .approved ∧ r'.dueDate = now + 15) ∧
    (∃ r' ∈ (handleApproveRequest s r.id r.bookId now).requests,
      r'.id = r.id ∧ r'.status = .approved ∧ r'.dueDate = now + 15 ∧
      r'.requestDate = r.requestDate ∧ r'.bookId = r.bookId) ∧
    (∀ b' ∈ (handleApproveRequest s r.id r.bookId now).books,
      b'.id = r.bookId → b'.status = .unavailable) ∧
    (∀ b : Book, b.status = .unavailable →
      bookStatusWrite r.bookId .unavailable b = b) := by
  refine ⟨?_, ?_, updateBookStatus_status, fun b hb => bookStatusWrite_self r.bookId hb⟩
  · intro r' hr' hid
    rcases List.mem_map.mp hr' with ⟨r₀, h₀, rfl⟩
    by_cases h : r₀.id = r.id
    · rw [approveRequestWrite_of_eq now h]
      exact ⟨rfl, rfl⟩
    · rw [approveRequestWrite_of_ne now h] at hid
      exact absurd hid h
  · refine ⟨approveRequestWrite r.id now r, List.mem_map.mpr ⟨r, hr, rfl⟩, ?_⟩
    rw [approveRequestWrite_of_eq now rfl]
    exact ⟨rfl, rfl, rfl, rfl, rfl⟩

/-- Closed instance of approveRequest_spec on the sample store. -/
theorem approveRequest_spec_witness :
    (∀ r' ∈ (handleApproveRequest sampleState samplePendingRequest.id
        samplePendingRequest.bookId 103).requests,
      r'.id = samplePendingRequest.id → r'.status = .approved ∧ r'.dueDate = 103 + 15) ∧
    (∃ r' ∈ (handleApproveRequest sampleState samplePendingRequest.id
        samplePendingRequest.bookId 103).requests,
      r'.id = samplePendingRequest.id ∧ r'.status = .approved ∧ r'.dueDate = 103 + 15 ∧
      r'.requestDate = samplePendingRequest.requestDate ∧
      r'.bookId = samplePendingRequest.bookId) ∧
    (∀ b' ∈ (handleApproveRequest sampleState samplePendingRequest.id
        samplePendingRequest.bookId 103).books,
      b'.id = samplePendingRequest.bookId → b'.status = .unavailable) ∧
    (∀ b : Book, b.status = .unavailable →
      bookStatusWrite samplePendingRequest.bookId .unavailable b = b) :=
  approveRequest_spec sampleState samplePendingRequest 103 (by decide) rfl

/-- C4: for every pending BookRequest, the reject action sets its status to
rejected and the associated Book's status to available, leaving every
request's dueDate and requestDate unchanged; and rejected is terminal: no
workflow action fired under its precondition changes the status of a stored
request whose id carries only rejected records. -/
theorem rejectRequest_spec :
    (∀ (s : LibraryState) (r : BookRequest), r ∈ s.requests → r.status = .pending →
      (∀ r' ∈ (handleRejectRequest s r.id r.bookId).requests,
        r'.id = r.id → r'.status = .rejected) ∧
      (∃ r' ∈ (handleRejectRequest s r.id r.bookId).requests,
        r'.id = r.id ∧ r'.status = .rejected ∧ r'.dueDate = r.dueDate ∧
        r'.requestDate = r.requestDate) ∧
      (∀ r'' ∈ s.requests,
        (requestStatusWrite r.id RequestStatus.rejected r'').dueDate = r''.dueDate ∧
        (requestStatusWrite r.id RequestStatus.rejected r'').requestDate =
          r''.requestDate) ∧
      (∀ b' ∈ (handleRejectRequest s r.id r.bookId).books,
        b'.id = r.bookId → b'.status = .available)) ∧
    (∀ (s : LibraryState) (a : WorkflowAction) (i : String),
      actionPre s a →
      (∃ r₀ ∈ s.requests, r₀.id = i) →
      (∀ r ∈ s.requests, r.id = i → r.status = .rejected) →
      ∀ r' ∈ (applyAction s a).requests, r'.id = i → r'.status = .rejected) := by
  constructor
  · intro s r hr hp
    refine ⟨?_, ?_, ?_, updateBookStatus_status⟩
    · intro r' hr' hid
      rcases List.mem_map.mp hr' with ⟨r₀, h₀, rfl⟩
      by_cases h : r₀.id = r.id
      · exact requestStatusWrite_status_of_eq _ h
      · rw [requestStatusWrite_of_ne _ h] at hid
        exact absurd hid h
    · refine ⟨requestStatusWrite r.id .rejected r, List.mem_map.mpr ⟨r, hr, rfl⟩, ?_⟩
      rw [requestStatusWrite_status_of_eq _ rfl]
      rcases requestStatusWrite_fields r.id .rejected r with ⟨h1, _, h3, h4⟩
      exact ⟨h1, rfl, h4, h3⟩
    · intro r'' _
      rcases requestStatusWrite_fields r.id .rejected r'' with ⟨_, _, h3, h4⟩
      exact ⟨h4, h3⟩
  · intro s a i hpre hex hall r' hr' hid
    cases a with
    | createRequest book rid uid uname now =>
      rcases hpre with ⟨_, _, hfresh⟩
      rcases List.mem_append.mp hr' with h | h
      · exact hall r' h hid
      · rcases hex with ⟨r₀, hr₀, hr₀i⟩
        simp only [List.mem_singleton] at h
        subst h
        exact absurd (hr₀i.trans hid.symm) (hfresh r₀ hr₀)
    | approve rid bid now =>
      rcases hpre with ⟨rp, hrp, hrpid, _, hrpst⟩
      rcases List.mem_map.mp hr' with ⟨r₁, h₁, rfl⟩
      have hid₁ : r₁.id = i := by
        rw [(approveRequestWrite_fields rid now r₁).1] at hid
        exact hid
      by_cases h : r₁.id = rid
      · have : rp.status = .rejected := hall rp hrp (hrpid.trans (h.symm.trans hid₁))
        rw [hrpst] at this
        exact absurd this (by simp)
      · rw [approveRequestWrite_of_ne now h]
        exact hall r₁ h₁ hid₁
    | reject rid bid =>
      rcases List.mem_map.mp hr' with ⟨r₁, h₁, rfl⟩
      by_cases h : r₁.id = rid
      · exact requestStatusWrite_status_of_eq _ h
      · rw [requestStatusWrite_of_ne _ h] at hid ⊢
        exact hall r₁ h₁ hid
    | markReturned rid bid =>
      rcases hpre with ⟨rp, hrp, hrpid, _, hrpst⟩
      rcases List.mem_map.mp hr' with ⟨r₁, h₁, rfl⟩
      have hid₁ : r₁.id = i := by
        rw [(requestStatusWrite_fields rid .returned r₁).1] at hid
        exact hid
      by_cases h : r₁.id = rid
      · have : rp.status = .rejected := hall rp hrp (hrpid.trans (h.symm.trans hid₁))
        rw [hrpst] at this
        exact absurd this (by simp)
      · rw [requestStatusWrite_of_ne _ h]
        exact hall r₁ h₁ hid₁
    | softDelete bid =>
      exact hall r' hr' hid
    | toggleAvailability bid cur =>
      exact hall r' hr' hid

/-- Closed instance of rejectRequest_spec on the sample store: the reject
effect at the concrete pending request, and terminality across a concrete
follow-up action. -/
theorem rejectRequest_spec_witness :
    ((∀ r' ∈ (handleRejectRequest sampleState samplePendingRequest.id
        samplePendingRequest.bookId).requests,
      r'.id = samplePendingRequest.id → r'.status = .rejected) ∧
    (∃ r' ∈ (handleRejectRequest sampleState samplePendingRequest.id
        samplePendingRequest.bookId).requests,
      r'.id = samplePendingRequest.id ∧ r'.status = .rejected ∧
      r'.dueDate = samplePendingRequest.dueDate ∧
      r'.requestDate = samplePendingRequest.requestDate) ∧
    (∀ r'' ∈ sampleState.requests,
      (requestStatusWrite samplePendingRequest.id RequestStatus.rejected r'').dueDate =
        r''.dueDate ∧
      (requestStatusWrite samplePendingRequest.id RequestStatus.rejected r'').requestDate =
        r''.requestDate) ∧
    (∀ b' ∈ (handleRejectRequest sampleState samplePendingRequest.id
        samplePendingRequest.bookId).books,
      b'.id = samplePendingRequest.bookId → b'.status = .available)) ∧
    (∀ r' ∈ (applyAction rejectedSampleState (.softDelete "b1")).requests,
      r'.id = "r1" → r'.status = .rejected) :=
  ⟨rejectRequest_spec.1 sampleState samplePendingRequest (by decide) rfl,
   rejectRequest_spec.2 rejectedSampleState (.softDelete "b1") "r1"
     (by decide) (by decide) (by decide)⟩

/-- C6: soft delete writes status deleted to the Book, the Book then appears
in neither the admin nor the public listing, and soft-deleting again is a
no-op on the stored state. -/
theorem softDelete_spec (s : LibraryState) (bid : String) :
    (∀ b' ∈ (handleDeleteBook s bid).books, b'.id = bid → b'.status = .deleted) ∧
    (∀ b' ∈ fetchBooksAdmin (handleDeleteBook s bid).books, b'.id ≠ bid) ∧
    (∀ b' ∈ fetchBooksPublic (handleDeleteBook s bid).books, b'.id ≠ bid) ∧
    handleDeleteBook (handleDeleteBook s bid) bid = handleDeleteBook s bid ∧
    (∀ b : Book, b.status = .deleted → bookStatusWrite bid .deleted b = b) := by
  have hdel : ∀ b' ∈ (handleDeleteBook s bid).books, b'.id = bid → b'.status = .deleted :=
    updateBookStatus_status
  have hlist : ∀ b' ∈ fetchBooksAdmin (handleDeleteBook s bid).books, b'.id ≠ bid := by
    intro b' hb' hid
    rcases List.mem_filter.mp hb' with ⟨hmem, hpred⟩
    have := hdel b' hmem hid
    simp [this] at hpred
  refine ⟨hdel, hlist, hlist, ?_, fun b hb => bookStatusWrite_self bid hb⟩
  cases s with
  | mk bs rs =>
    simp only [handleDeleteBook, updateBookStatus, List.map_map, LibraryState.mk.injEq,
      and_true]
    refine List.map_congr_left ?_
    intro b _
    by_cases h : b.id = bid
    · simp [Function.comp, bookStatusWrite, h]
    · simp [Function.comp, bookStatusWrite_of_ne _ h]

/-- C7: an admin registration whose submitted code differs from the configured
secret is rejected by onSubmit before the auth-provider account and the
profile record are created. -/
theorem adminRegister_rejected_before_writes (code : String) (secret : Option String)
    (h : some code ≠ secret) :
    onSubmitRegister .admin code secret =
      { rejectedByAdminGate := true, authAccountCreated := false,
        profileCreated := false } := by
  have hv : verifyAdminCode (some code) secret = false := by
    simp only [verifyAdminCode]
    exact beq_eq_false_iff_ne.mpr h
  simp [onSubmitRegister, hv]

/-- Closed instance of adminRegister_rejected_before_writes at a wrong code. -/
theorem adminRegister_rejected_before_writes_witness :
    onSubmitRegister .admin "letmein" (some "s3cret") =
      { rejectedByAdminGate := true, authAccountCreated := false,
        profileCreated := false } :=
  adminRegister_rejected_before_writes "letmein" (some "s3cret") (by decide)

/-- C8: on a Book whose status is available or unavailable, toggle maps
available to unavailable and back, never yields deleted, is an involution,
touches no other Book field, and applying the toggle action twice restores
the store. -/
theorem toggleStatus_spec :
    toggledStatus .available = .unavailable ∧
    toggledStatus .unavailable = .available ∧
    (∀ c : BookStatus, toggledStatus c ≠ .deleted) ∧
    (∀ c : BookStatus, c = .available ∨ c = .unavailable →
      toggledStatus (toggledStatus c) = c) ∧
    (∀ (bid : String) (cur : BookStatus) (b : Book),
      (bookStatusWrite bid (toggledStatus cur) b).id = b.id ∧
      (bookStatusWrite bid (toggledStatus cur) b).title = b.title ∧
      (bookStatusWrite bid (toggledStatus cur) b).author = b.author ∧
      (bookStatusWrite bid (toggledStatus cur) b).category = b.category ∧
      (bookStatusWrite bid (toggledStatus cur) b).description = b.description ∧
      (bookStatusWrite bid (toggledStatus cur) b).coverImage = b.coverImage) ∧
    (∀ (s : LibraryState) (bid : String) (cur : BookStatus),
      (cur = .available ∨ cur = .unavailable) →
      (∀ b ∈ s.books, b.id = bid → b.status = cur) →
      handleToggleStatus (handleToggleStatus s bid cur) bid (toggledStatus cur) = s) := by
  refine ⟨rfl, rfl, ?_, ?_, ?_, ?_⟩
  · intro c
    cases c <;> simp [toggledStatus]
  · rintro c (rfl | rfl) <;> rfl
  · intro bid cur b
    simp only [bookStatusWrite]
    split <;> simp
  · intro s bid cur hcur hall
    have htog : toggledStatus (toggledStatus cur) = cur := by
      rcases hcur with rfl | rfl <;> rfl
    cases s with
    | mk bs rs =>
      simp only [handleToggleStatus, updateBookStatus, List.map_map,
        LibraryState.mk.injEq, and_true]
      have hpt : ∀ b ∈ bs,
          (bookStatusWrite bid (toggledStatus (toggledStatus cur)) ∘
            bookStatusWrite bid (toggledStatus cur)) b = id b := by
        intro b hb
        by_cases h : b.id = bid
        · have hst := hall b hb h
          show bookStatusWrite bid (toggledStatus (toggledStatus cur))
              (bookStatusWrite bid (toggledStatus cur) b) = id b
          rw [bookStatusWrite_write, htog, ← hst, bookStatusWrite_self bid rfl]
          rfl
        · simp [Function.comp, bookStatusWrite_of_ne _ h]
      rw [List.map_congr_left hpt, List.map_id]

/-- Closed instance of toggleStatus_spec: the involution and the concrete
double toggle on the sample store. -/
theorem toggleStatus_spec_witness :
    toggledStatus (toggledStatus .available) = .available ∧
    handleToggleStatus (handleToggleStatus sampleState "b2" .available) "b2"
        (toggledStatus .available) = sampleState :=
  ⟨toggleStatus_spec.2.2.2.1 .available (Or.inl rfl),
   toggleStatus_spec.2.2.2.2.2 sampleState "b2" .available (Or.inl rfl) (by decide)⟩

/-- C9: with the ADMIN_SECRET_CODE environment variable unset and the
adminCode field omitted, the comparison is undefined === undefined and the
endpoint answers valid; and for a string adminCode, valid holds exactly when
it equals the configured secret. -/
theorem verifyAdminCode_spec :
    verifyAdminCode none none = true ∧
    (∀ (c : String) (secret : Option String),
      verifyAdminCode (some c) secret = true ↔ secret = some c) := by
  refine ⟨rfl, ?_⟩
  intro c secret
  simp only [verifyAdminCode, beq_iff_eq]
  exact eq_comm

/-- C10: the book write of reject and mark-returned is unconditionally
available, so either action aimed at a deleted Book resurrects it into both
catalog listings. -/
theorem reject_return_resurrect_deleted (s : LibraryState) (rid : String) (b : Book)
    (hb : b ∈ s.books) (hdel : b.status = .deleted) :
    (∀ b' ∈ (handleRejectRequest s rid b.id).books,
      b'.id = b.id → b'.status = .available) ∧
    (∃ b' ∈ fetchBooksPublic (handleRejectRequest s rid b.id).books,
      b'.id = b.id ∧ b'.status = .available) ∧
    (∃ b' ∈ fetchBooksAdmin (handleRejectRequest s rid b.id).books,
      b'.id = b.id ∧ b'.status = .available) ∧
    (∀ b' ∈ (handleMarkReturned s rid b.id).books,
      b'.id = b.id → b'.status = .available) ∧
    (∃ b' ∈ fetchBooksPublic (handleMarkReturned s rid b.id).books,
      b'.id = b.id ∧ b'.status = .available) := by
  have hmem : bookStatusWrite b.id .available b ∈
      updateBookStatus b.id .available s.books :=
    List.mem_map.mpr ⟨b, hb, rfl⟩
  have hid : (bookStatusWrite b.id .available b).id = b.id :=
    bookStatusWrite_id b.id .available b
  have hst : (bookStatusWrite b.id .available b).status = .available :=
    bookStatusWrite_status_of_eq .available rfl
  have hfil : bookStatusWrite b.id .available b ∈
      (updateBookStatus b.id .available s.books).filter
        (fun b' => b'.status ≠ .deleted) :=
    List.mem_filter.mpr ⟨hmem, by simp [hst]⟩
  exact ⟨updateBookStatus_status,
    ⟨bookStatusWrite b.id .available b, hfil, hid, hst⟩,
    ⟨bookStatusWrite b.id .available b, hfil, hid, hst⟩,
    updateBookStatus_status,
    ⟨bookStatusWrite b.id .available b, hfil, hid, hst⟩⟩

/-- Closed instance of reject_return_resurrect_deleted: rejecting a request
whose book was soft-deleted makes that book available and listed again. -/
theorem reject_return_resurrect_deleted_witness :
    (∀ b' ∈ (handleRejectRequest deletedSampleState "r1" "b1").books,
      b'.id = "b1" → b'.status = .available) ∧
    (∃ b' ∈ fetchBooksPublic (handleRejectRequest deletedSampleState "r1" "b1").books,
      b'.id = "b1" ∧ b'.status = .available) ∧
    (∃ b' ∈ fetchBooksAdmin (handleRejectRequest deletedSampleState "r1" "b1").books,
      b'.id = "b1" ∧ b'.status = .available) ∧
    (∀ b' ∈ (handleMarkReturned deletedSampleState "r1" "b1").books,
      b'.id = "b1" → b'.status = .available) ∧
    (∃ b' ∈ fetchBooksPublic (handleMarkReturned deletedSampleState "r1" "b1").books,
      b'.id = "b1" ∧ b'.status = .available) :=
  reject_return_resurrect_deleted deletedSampleState "r1"
    (bookStatusWrite "b1" .deleted sampleBookUnavailable) (by decide) (by decide)

theorem approve_map_at_id {l : List BookRequest} {rid : String} {now : Nat} :
    ∀ r' ∈ l.map (approveRequestWrite rid now), r'.id = rid →
      r'.status = .approved ∧ r'.dueDate = now + 15 := by
  intro r' h hid
  rcases List.mem_map.mp h with ⟨r₁, h₁, rfl⟩
  by_cases h2 : r₁.id = rid
  · rw [approveRequestWrite_of_eq now h2]
    exact ⟨rfl, rfl⟩
  · rw [approveRequestWrite_of_ne now h2] at hid
    exact absurd hid h2

/-- C5: starting from an available Book, the sequence create-request, approve,
mark-returned leaves the request returned with dueDate equal to the approval
time plus 15 days and the Book available; after the intermediate approve the
request is approved and the Book unavailable. -/
theorem lendingCycle_spec (s : LibraryState) (book : Book) (rid uid uname : String)
    (t₀ t₁ : Nat) (hb : book ∈ s.books) (hav : book.status = .available)
    (hfresh : ∀ r ∈ s.requests, r.id ≠ rid) :
    (∀ r' ∈ (handleApproveRequest (handleRequestBook s book rid uid uname t₀)
        rid book.id t₁).requests,
      r'.id = rid → r'.status = .approved ∧ r'.dueDate = t₁ + 15) ∧
    (∀ b' ∈ (handleApproveRequest (handleRequestBook s book rid uid uname t₀)
        rid book.id t₁).books,
      b'.id = book.id → b'.status = .unavailable) ∧
    (∀ r' ∈ (handleMarkReturned (handleApproveRequest
        (handleRequestBook s book rid uid uname t₀) rid book.id t₁) rid book.id).requests,
      r'.id = rid → r'.status = .returned ∧ r'.dueDate = t₁ + 15) ∧
    (∃ r' ∈ (handleMarkReturned (handleApproveRequest
        (handleRequestBook s book rid uid uname t₀) rid book.id t₁) rid book.id).requests,
      r'.id = rid) ∧
    (∀ b' ∈ (handleMarkReturned (handleApproveRequest
        (handleRequestBook s book rid uid uname t₀) rid book.id t₁) rid book.id).books,
      b'.id = book.id → b'.status = .available) ∧
    (∃ b' ∈ (handleMarkReturned (handleApproveRequest
        (handleRequestBook s book rid uid uname t₀) rid book.id t₁) rid book.id).books,
      b'.id = book.id) := by
  refine ⟨approve_map_at_id, updateBookStatus_status, ?_, ?_, updateBookStatus_status, ?_⟩
  · intro r' h hid
    rcases List.mem_map.mp h with ⟨r₂, h₂, rfl⟩
    by_cases h2 : r₂.id = rid
    · refine ⟨requestStatusWrite_status_of_eq _ h2, ?_⟩
      rw [(requestStatusWrite_fields rid .returned r₂).2.2.2]
      exact (approve_map_at_id r₂ h₂ h2).2
    · rw [requestStatusWrite_of_ne _ h2] at hid
      exact absurd hid h2
  · refine ⟨requestStatusWrite rid .returned (approveRequestWrite rid t₁
      { id := rid, bookId := book.id, bookTitle := book.title, userId := uid,
        userName := uname, requestDate := t₀, dueDate := addDays 15 t₀,
        status := .pending }), ?_, ?_⟩
    · refine List.mem_map.mpr ⟨_, List.mem_map.mpr ⟨_, ?_, rfl⟩, rfl⟩
      exact List.mem_append.mpr (Or.inr (List.mem_singleton.mpr rfl))
    · rw [(requestStatusWrite_fields rid .returned _).1,
        (approveRequestWrite_fields rid t₁ _).1]
  · refine ⟨bookStatusWrite book.id .available (bookStatusWrite book.id .unavailable
      (bookStatusWrite book.id .unavailable book)), ?_, ?_⟩
    · exact List.mem_map.mpr ⟨_, List.mem_map.mpr ⟨_, List.mem_map.mpr ⟨book, hb, rfl⟩,
        rfl⟩, rfl⟩
    · rw [bookStatusWrite_id, bookStatusWrite_id, bookStatusWrite_id]

/-- Closed instance of lendingCycle_spec on the sample store. -/
theorem lendingCycle_spec_witness :
    (∀ r' ∈ (handleApproveRequest (handleRequestBook sampleState sampleBookAvailable
        "r2" "u2" "Daniel" 200) "r2" sampleBookAvailable.id 203).requests,
      r'.id = "r2" → r'.status = .approved ∧ r'.dueDate = 203 + 15) ∧
    (∀ b' ∈ (handleApproveRequest (handleRequestBook sampleState sampleBookAvailable
        "r2" "u2" "Daniel" 200) "r2" sampleBookAvailable.id 203).books,
      b'.id = sampleBookAvailable.id → b'.status = .unavailable) ∧
    (∀ r' ∈ (handleMarkReturned (handleApproveRequest (handleRequestBook sampleState
        sampleBookAvailable "r2" "u2" "Daniel" 200) "r2" sampleBookAvailable.id 203)
        "r2" sampleBookAvailable.id).requests,
      r'.id = "r2" → r'.status = .returned ∧ r'.dueDate = 203 + 15) ∧
    (∃ r' ∈ (handleMarkReturned (handleApproveRequest (handleRequestBook sampleState
        sampleBookAvailable "r2" "u2" "Daniel" 200) "r2" sampleBookAvailable.id 203)
        "r2" sampleBookAvailable.id).requests,
      r'.id = "r2") ∧
    (∀ b' ∈ (handleMarkReturned (handleApproveRequest (handleRequestBook sampleState
        sampleBookAvailable "r2" "u2" "Daniel" 200) "r2" sampleBookAvailable.id 203)
        "r2" sampleBookAvailable.id).books,
      b'.id = sampleBookAvailable.id → b'.status = .available) ∧
    (∃ b' ∈ (handleMarkReturned (handleApproveRequest (handleRequestBook sampleState
        sampleBookAvailable "r2" "u2" "Daniel" 200) "r2" sampleBookAvailable.id 203)
        "r2" sampleBookAvailable.id).books,
      b'.id = sampleBookAvailable.id) :=
  lendingCycle_spec sampleState sampleBookAvailable "r2" "u2" "Daniel" 200 203
    (by decide) rfl (by decide)

/-! ### Preservation of the availability invariant, action by action -/

theorem create_preserves_invariants (s : LibraryState) (book : Book)
    (rid uid uname : String) (now : Nat)
    (hinv : availableImpliesNoOpen s) (hone : atMostOneOpenPerBook s)
    (hnd : requestIdsNodup s)
    (hb : book ∈ s.books) (hav : book.status = .available)
    (hfresh : ∀ r ∈ s.requests, r.id ≠ rid) :
    availableImpliesNoOpen (handleRequestBook s book rid uid uname now) ∧
    atMostOneOpenPerBook (handleRequestBook s book rid uid uname now) ∧
    requestIdsNodup (handleRequestBook s book rid uid uname now) := by
  refine ⟨?_, ?_, ?_⟩
  · intro b' hb' hav' r' hr' hbid
    rcases List.mem_map.mp hb' with ⟨b₀, h₀, rfl⟩
    rw [bookStatusWrite_id] at hbid
    by_cases h : b₀.id = book.id
    · rw [bookStatusWrite_status_of_eq _ h] at hav'
      exact absurd hav' (by simp)
    · rw [bookStatusWrite_of_ne _ h] at hav'
      rcases List.mem_append.mp hr' with h1 | h1
      · exact hinv b₀ h₀ hav' r' h1 hbid
      · simp only [List.mem_singleton] at h1
        subst h1
        exact fun _ => h hbid.symm
  · show (s.requests ++ [_]).Pairwise _
    rw [List.pairwise_append]
    refine ⟨hone, by simp, ?_⟩
    intro r₁ h₁ r₂ h₂
    simp only [List.mem_singleton] at h₂
    subst h₂
    intro hop₁ _ heq
    exact hinv book hb hav r₁ h₁ heq hop₁
  · show ((s.requests ++ [_]).map BookRequest.id).Nodup
    rw [List.map_append, List.nodup_append]
    refine ⟨hnd, List.nodup_singleton _, ?_⟩
    intro i hi hmem
    simp only [List.map_cons, List.map_nil, List.mem_singleton] at hmem
    subst hmem
    rcases List.mem_map.mp hi with ⟨r, hr, hrid⟩
    exact hfresh r hr hrid

theorem approve_preserves_invariants (s : LibraryState) (rid bid : String) (now : Nat)
    (hinv : availableImpliesNoOpen s) (hone : atMostOneOpenPerBook s)
    (hnd : requestIdsNodup s)
    (hpre : ∃ r ∈ s.requests, r.id = rid ∧ r.bookId = bid ∧ r.status = .pending) :
    availableImpliesNoOpen (handleApproveRequest s rid bid now) ∧
    atMostOneOpenPerBook (handleApproveRequest s rid bid now) ∧
    requestIdsNodup (handleApproveRequest s rid bid now) := by
  rcases hpre with ⟨rp, hrp, hrpid, hrpbid, hrpst⟩
  have hinj := List.inj_on_of_nodup_map hnd
  have hopenOf : ∀ r ∈ s.requests, isOpenRequest (approveRequestWrite rid now r) →
      isOpenRequest r := by
    intro r hr hop
    by_cases h2 : r.id = rid
    · have heq : r = rp := hinj hr hrp (h2.trans hrpid.symm)
      rw [heq]
      exact Or.inl hrpst
    · rw [approveRequestWrite_of_ne now h2] at hop
      exact hop
  refine ⟨?_, ?_, ?_⟩
  · intro b' hb' hav' r' hr' hbid
    rcases List.mem_map.mp hb' with ⟨b₀, h₀, rfl⟩
    rw [bookStatusWrite_id] at hbid
    by_cases h : b₀.id = bid
    · rw [bookStatusWrite_status_of_eq _ h] at hav'
      exact absurd hav' (by simp)
    · rw [bookStatusWrite_of_ne _ h] at hav'
      rcases List.mem_map.mp hr' with ⟨r₁, h₁, rfl⟩
      rw [(approveRequestWrite_fields rid now r₁).2.1] at hbid
      intro hop'
      exact hinv b₀ h₀ hav' r₁ h₁ hbid (hopenOf r₁ h₁ hop')
  · show (s.requests.map (approveRequestWrite rid now)).Pairwise _
    rw [List.pairwise_map]
    refine hone.imp_of_mem ?_
    intro a b ha hb hR hopa hopb
    rw [(approveRequestWrite_fields rid now a).2.1,
      (approveRequestWrite_fields rid now b).2.1]
    exact hR (hopenOf a ha hopa) (hopenOf b hb hopb)
  · show ((s.requests.map (approveRequestWrite rid now)).map BookRequest.id).Nodup
    have hids : List.map (BookRequest.id ∘ approveRequestWrite rid now) s.requests =
        List.map BookRequest.id s.requests :=
      List.map_congr_left (fun r _ => (approveRequestWrite_fields rid now r).1)
    rw [List.map_map, hids]
    exact hnd

theorem close_preserves_invariants (s : LibraryState) (rid bid : String)
    (st : RequestStatus) (hstc : st = .rejected ∨ st = .returned)
    (hinv : availableImpliesNoOpen s) (hone : atMostOneOpenPerBook s)
    (hnd : requestIdsNodup s)
    (hpre : ∃ r ∈ s.requests, r.id = rid ∧ r.bookId = bid ∧ isOpenRequest r) :
    availableImpliesNoOpen
      { books := updateBookStatus bid .available s.books
        requests := s.requests.map (requestStatusWrite rid st) } ∧
    atMostOneOpenPerBook
      { books := updateBookStatus bid .available s.books
        requests := s.requests.map (requestStatusWrite rid st) } ∧
    requestIdsNodup
      { books := updateBookStatus bid .available s.books
        requests := s.requests.map (requestStatusWrite rid st) } := by
  rcases hpre with ⟨rp, hrp, hrpid, hrpbid, hrpop⟩
  have hcl : st ≠ RequestStatus.pending ∧ st ≠ RequestStatus.approved := by
    rcases hstc with rfl | rfl
    · exact ⟨by simp, by simp⟩
    · exact ⟨by simp, by simp⟩
  have hopenOf : ∀ r, isOpenRequest (requestStatusWrite rid st r) → r.id ≠ rid ∧
      isOpenRequest r := by
    intro r hop
    by_cases h2 : r.id = rid
    · exfalso
      have hst' := requestStatusWrite_status_of_eq st h2
      rcases hop with hst | hst
      · rw [hst'] at hst
        exact hcl.1 hst
      · rw [hst'] at hst
        exact hcl.2 hst
    · rw [requestStatusWrite_of_ne st h2] at hop
      exact ⟨h2, hop⟩
  have hsym : Symmetric (fun r₁ r₂ : BookRequest =>
      isOpenRequest r₁ → isOpenRequest r₂ → r₁.bookId ≠ r₂.bookId) := by
    intro x y hxy hoy hox
    exact (hxy hox hoy).symm
  refine ⟨?_, ?_, ?_⟩
  · intro b' hb' hav' r' hr' hbid
    rcases List.mem_map.mp hb' with ⟨b₀, h₀, rfl⟩
    rw [bookStatusWrite_id] at hbid
    rcases List.mem_map.mp hr' with ⟨r₁, h₁, rfl⟩
    rw [(requestStatusWrite_fields rid st r₁).2.1] at hbid
    intro hop'
    rcases hopenOf r₁ hop' with ⟨h2, hop₁⟩
    by_cases h3 : b₀.id = bid
    · have hne : r₁ ≠ rp := fun he => h2 (by rw [he, hrpid])
      have hdiff := hone.forall hsym h₁ hrp hne hop₁ hrpop
      exact hdiff (by rw [hbid, h3, ← hrpbid])
    · rw [bookStatusWrite_of_ne _ h3] at hav'
      exact hinv b₀ h₀ hav' r₁ h₁ hbid hop₁
  · show (s.requests.map (requestStatusWrite rid st)).Pairwise _
    rw [List.pairwise_map]
    refine hone.imp_of_mem ?_
    intro a b _ _ hR hopa hopb
    rw [(requestStatusWrite_fields rid st a).2.1,
      (requestStatusWrite_fields rid st b).2.1]
    exact hR (hopenOf a hopa).2 (hopenOf b hopb).2
  · show ((s.requests.map (requestStatusWrite rid st)).map BookRequest.id).Nodup
    have hids : List.map (BookRequest.id ∘ requestStatusWrite rid st) s.requests =
        List.map BookRequest.id s.requests :=
      List.map_congr_left (fun r _ => (requestStatusWrite_fields rid st r).1)
    rw [List.map_map, hids]
    exact hnd

theorem softDelete_preserves_invariants (s : LibraryState) (bid : String)
    (hinv : availableImpliesNoOpen s) (hone : atMostOneOpenPerBook s)
    (hnd : requestIdsNodup s) :
    availableImpliesNoOpen (handleDeleteBook s bid) ∧
    atMostOneOpenPerBook (handleDeleteBook s bid) ∧
    requestIdsNodup (handleDeleteBook s bid) := by
  refine ⟨?_, hone, hnd⟩
  intro b' hb' hav' r' hr' hbid
  rcases List.mem_map.mp hb' with ⟨b₀, h₀, rfl⟩
  rw [bookStatusWrite_id] at hbid
  by_cases h : b₀.id = bid
  · rw [bookStatusWrite_status_of_eq _ h] at hav'
    exact absurd hav' (by simp)
  · rw [bookStatusWrite_of_ne _ h] at hav'
    exact hinv b₀ h₀ hav' r' hr' hbid

/-- C1 amended: assuming distinct request ids and at most one open request
per book, every workflow action other than toggle-availability preserves the
invariant that an available Book has no open request (and preserves the two
auxiliary invariants); toggle-availability is excluded because it violates
the invariant on an unavailable Book with an open request. -/
theorem workflow_preserves_available_invariant :
    ∀ (s : LibraryState) (a : WorkflowAction),
      availableImpliesNoOpen s → atMostOneOpenPerBook s → requestIdsNodup s →
      actionPre s a →
      (∀ (bid : String) (cur : BookStatus), a ≠ .toggleAvailability bid cur) →
      availableImpliesNoOpen (applyAction s a) ∧
      atMostOneOpenPerBook (applyAction s a) ∧
      requestIdsNodup (applyAction s a) := by
  intro s a hinv hone hnd hpre htog
  cases a with
  | createRequest book rid uid uname now =>
    exact create_preserves_invariants s book rid uid uname now hinv hone hnd
      hpre.1 hpre.2.1 hpre.2.2
  | approve rid bid now =>
    exact approve_preserves_invariants s rid bid now hinv hone hnd hpre
  | reject rid bid =>
    rcases hpre with ⟨rp, hrp, h1, h2, h3⟩
    exact close_preserves_invariants s rid bid .rejected (Or.inl rfl) hinv hone hnd
      ⟨rp, hrp, h1, h2, Or.inl h3⟩
  | markReturned rid bid =>
    rcases hpre with ⟨rp, hrp, h1, h2, h3⟩
    exact close_preserves_invariants s rid bid .returned (Or.inr rfl) hinv hone hnd
      ⟨rp, hrp, h1, h2, Or.inr h3⟩
  | softDelete bid =>
    exact softDelete_preserves_invariants s bid hinv hone hnd
  | toggleAvailability bid cur =>
    exact absurd rfl (htog bid cur)

/-- Closed instance of workflow_preserves_available_invariant at the concrete
reject action on the sample store. -/
theorem workflow_preserves_available_invariant_witness :
    availableImpliesNoOpen (applyAction sampleState (.reject "r1" "b1")) ∧
    atMostOneOpenPerBook (applyAction sampleState (.reject "r1" "b1")) ∧
    requestIdsNodup (applyAction sampleState (.reject "r1" "b1")) :=
  workflow_preserves_available_invariant sampleState (.reject "r1" "b1")
    (by decide) (by decide) (by decide) (by decide)
    (fun _ _ h => WorkflowAction.noConfusion h)

/-- C1 counterexample: on a store satisfying the invariant, toggling an
unavailable Book that has an open pending request makes the Book available
while the request stays open, so the invariant does not hold after this
workflow action. -/
theorem toggle_breaks_available_invariant :
    availableImpliesNoOpen sampleState ∧ atMostOneOpenPerBook sampleState ∧
    requestIdsNodup sampleState ∧
    actionPre sampleState (.toggleAvailability "b1" .unavailable) ∧
    ¬ availableImpliesNoOpen
        (applyAction sampleState (.toggleAvailability "b1" .unavailable)) := by
  decide

end PrayerCell
